import Mathlib

/-!
Verification development for the yt-transcript-dl extraction pipeline.

Shallow embedding of the core services:
- `src/services/youtube-extractor.service.ts` (YouTubeExtractorService):
  video-id validation, caption-track selection, retry loop, cache/rate-limiter
  orchestration in `extractTranscript`.
- `src/services/bulk-processor.service.ts` (BulkProcessorService):
  per-item retry with terminal-error classification, bulk fan-out, report
  aggregation.
- `src/services/rate-limiter.service.ts` (RateLimiterService and the appended
  CacheService): fixed-window request counting with a single backoff delay,
  and an LRU transcript cache.

Network interaction is modelled by explicit oracles describing the outcome of
each attempt; asynchronous execution is modelled sequentially (each theorem is
about the data flow of one logical interleaving).  Machine numbers are modelled
by `Nat`/`ℚ` (the quantities involved — counts, seconds, percentages — stay far
from any overflow boundary in the source).
-/

/-- Error codes of the `ErrorCode` enum from `src/types/index.ts`, as used by
the services (`INVALID_VIDEO_ID`, `VIDEO_NOT_FOUND`, `PRIVATE_VIDEO`,
`DELETED_VIDEO`, `AGE_RESTRICTED`, `TRANSCRIPT_NOT_AVAILABLE`, `TIMEOUT`,
`NETWORK_ERROR`, `INVALID_PLAYLIST_ID`, `UNKNOWN`). -/
inductive ErrorCode where
  | INVALID_VIDEO_ID
  | INVALID_PLAYLIST_ID
  | VIDEO_NOT_FOUND
  | PRIVATE_VIDEO
  | DELETED_VIDEO
  | AGE_RESTRICTED
  | TRANSCRIPT_NOT_AVAILABLE
  | TIMEOUT
  | NETWORK_ERROR
  | UNKNOWN
  deriving DecidableEq, Repr

/-- Embedding of the `TranscriptError` class: a message, a classification code
and the offending video id (the optional `details` payload is not inspected by
any of the services and is omitted). -/
structure TranscriptError where
  message : String
  code : ErrorCode
  videoId : String
  deriving DecidableEq, Repr

/-- Embedding of `TranscriptSegment`: text plus start/duration in seconds
(the source divides millisecond counts by 1000, so seconds are rationals). -/
structure TranscriptSegment where
  text : String
  start : ℚ
  duration : ℚ
  deriving DecidableEq, Repr

/-- Embedding of `VideoTranscript` as assembled by `performExtraction`.
The `fetchedAt : Date` timestamp carries no information used by any service
logic and is omitted from the model. -/
structure VideoTranscript where
  videoId : String
  title : String
  channel : String
  duration : Nat
  language : String
  isAutoGenerated : Bool
  segments : List TranscriptSegment
  deriving DecidableEq, Repr

/-- Embedding of a caption-track descriptor as produced by
`extractCaptionsData`: base URL, display name, language code and `kind`
(the string `"asr"` marks an auto-generated track; manual tracks carry an
empty kind, standing for the absent `kind` field in the page data). -/
structure CaptionTrack where
  baseUrl : String
  name : String
  languageCode : String
  kind : String
  deriving DecidableEq, Repr

/-- Embedding of `YouTubeExtractorService.isValidVideoId`: the regular
expression `^[a-zA-Z0-9_-]{11}$` as a decidable predicate on strings. -/
def isValidVideoIdChar (c : Char) : Bool :=
  (('a' ≤ c) && (c ≤ 'z')) || (('A' ≤ c) && (c ≤ 'Z')) ||
  (('0' ≤ c) && (c ≤ '9')) || (c == '_') || (c == '-')

/-- Embedding of `YouTubeExtractorService.isValidVideoId` (regex
`^[a-zA-Z0-9_-]{11}$`), on the underlying character list (kernel-computable):
exactly 11 characters, all from the class. -/
def isValidVideoId (videoId : String) : Bool :=
  (videoId.data.length == 11) && videoId.data.all isValidVideoIdChar

/-- Embedding of `String.prototype.startsWith`, on the underlying character
lists (kernel-computable, unlike `String.startsWith`). -/
def strStartsWith (s pre : String) : Bool :=
  pre.data.isPrefixOf s.data

/-- Embedding of `YouTubeExtractorService.selectCaptionTrack`
(`youtube-extractor.service.ts:263-282`).  The requested language is the
optional `options.lang`; the JavaScript truthiness test `if (options.lang)`
makes the empty string behave like an absent language. -/
def selectCaptionTrack (tracks : List CaptionTrack) (lang : Option String) :
    Option CaptionTrack :=
  if tracks.isEmpty then none
  else
    let byLang : Option CaptionTrack :=
      match lang with
      | some l =>
        if l = "" then none
        else
          match tracks.find? (fun t => t.languageCode == l) with
          | some t => some t
          | none => tracks.find? (fun t => strStartsWith t.languageCode l)
      | none => none
    match byLang with
    | some t => some t
    | none =>
      match tracks.find? (fun t => t.kind != "asr") with
      | some t => some t
      | none => tracks.head?

/-- Reformulation of the track-selection rule following the words of the
specification: none for an empty list; when a language is requested, the first
exact language-code match, else the first track whose code starts with the
requested language; otherwise the first manual (non-auto-generated) track,
else the first track in the provided order.  Written from the spec sentence,
to be compared against `selectCaptionTrack`. -/
def selectTrackSpec (tracks : List CaptionTrack) (lang : Option String) :
    Option CaptionTrack :=
  if tracks.isEmpty then none
  else
    let byLang : Option CaptionTrack :=
      match lang with
      | some l =>
        ((tracks.find? (fun t => t.languageCode == l)).orElse
          (fun _ => tracks.find? (fun t => strStartsWith t.languageCode l)))
      | none => none
    match byLang with
    | some t => some t
    | none =>
      ((tracks.find? (fun t => t.kind != "asr")).orElse
        (fun _ => tracks.head?))

/-- Concrete manual `en-US` track used in the selection examples. -/
def trackEnUSManual : CaptionTrack :=
  { baseUrl := "u1", name := "English (US)", languageCode := "en-US", kind := "" }

/-- Concrete auto-generated `en` track used in the selection examples. -/
def trackEnAuto : CaptionTrack :=
  { baseUrl := "u2", name := "English (auto)", languageCode := "en", kind := "asr" }

/-- Concrete auto-generated `fr` track used in the selection examples. -/
def trackFrAuto : CaptionTrack :=
  { baseUrl := "u3", name := "French (auto)", languageCode := "fr", kind := "asr" }

/-- C6: the track selector agrees with the specification's rule — none on an
empty list; with a (non-empty, i.e. actually requested) language, first exact
match, else first prefix match; otherwise first manual track, else first track
— and on the two concrete examples: tracks `[en-US manual, en auto]` with
requested `en` select the `en` auto track, and `[en-US manual, fr auto]` with
requested `en` select `en-US`. -/
theorem selectCaptionTrack_correct (tracks : List CaptionTrack)
    (lang : Option String) (hl : lang ≠ some "") :
    selectCaptionTrack tracks lang = selectTrackSpec tracks lang ∧
    selectCaptionTrack [trackEnUSManual, trackEnAuto] (some "en") =
      some trackEnAuto ∧
    selectCaptionTrack [trackEnUSManual, trackFrAuto] (some "en") =
      some trackEnUSManual := by
  refine ⟨?_, by decide, by decide⟩
  unfold selectCaptionTrack selectTrackSpec
  by_cases he : tracks.isEmpty
  · simp [he]
  · simp only [he, if_false]
    cases lang with
    | none =>
      cases h3 : tracks.find? (fun t => t.kind != "asr") <;>
        simp [Option.orElse, h3]
    | some l =>
      have hne : ¬ (l = "") := fun h => hl (by simp [h])
      simp only [if_neg hne]
      cases h1 : tracks.find? (fun t => t.languageCode == l) with
      | some t => simp [Option.orElse, h1]
      | none =>
        cases h2 : tracks.find? (fun t => strStartsWith t.languageCode l) with
        | some t => simp [Option.orElse, h1, h2]
        | none =>
          cases h3 : tracks.find? (fun t => t.kind != "asr") <;>
            simp [Option.orElse, h1, h2, h3]

/-- Witness for C6 at a concrete input: the requested language `en` is not the
empty string, and the selector there agrees with the spec rule. -/
theorem selectCaptionTrack_correct_witness :
    selectCaptionTrack [trackEnUSManual, trackEnAuto] (some "en") =
      selectTrackSpec [trackEnUSManual, trackEnAuto] (some "en") :=
  (selectCaptionTrack_correct [trackEnUSManual, trackEnAuto] (some "en")
    (by decide)).1

/-- Fallback error thrown by `extractWithRetry` when the loop ends without a
recorded error (`youtube-extractor.service.ts:110`). -/
def retriesExhaustedError (videoId : String) : TranscriptError :=
  { message := "Extraction failed after retries", code := .UNKNOWN,
    videoId := videoId }

/-- Embedding of the attempt loop of `YouTubeExtractorService.extractWithRetry`
(`youtube-extractor.service.ts:93-111`).  `perform` gives the outcome of
`performExtraction` on each attempt (1-indexed); the loop keeps the last error
and retries EVERY failure while attempts remain; the second component counts
the attempts actually performed.  The inter-attempt delay
(`retryDelay * attempt`) only consumes wall-clock time and is not modelled. -/
def extractWithRetryGo (perform : Nat → Except TranscriptError VideoTranscript)
    (videoId : String) :
    Nat → Nat → Option TranscriptError →
      Except TranscriptError VideoTranscript × Nat
  | _, 0, last => (.error (last.getD (retriesExhaustedError videoId)), 0)
  | attempt, remaining + 1, _ =>
    match perform attempt with
    | .ok t => (.ok t, 1)
    | .error e =>
      let r := extractWithRetryGo perform videoId (attempt + 1) remaining (some e)
      (r.1, r.2 + 1)

/-- Embedding of `YouTubeExtractorService.extractWithRetry`: run the attempt
loop starting at attempt 1 with `retryAttempts` attempts available. -/
def extractWithRetry (perform : Nat → Except TranscriptError VideoTranscript)
    (videoId : String) (retryAttempts : Nat) :
    Except TranscriptError VideoTranscript × Nat :=
  extractWithRetryGo perform videoId 1 retryAttempts none

/-- Helper: a failing attempt with budget left recurses with the error
recorded, adding one to the attempt count. -/
theorem extractWithRetryGo_step
    (perform : Nat → Except TranscriptError VideoTranscript) (videoId : String)
    (attempt remaining : Nat) (last : Option TranscriptError)
    (e : TranscriptError) (h : perform attempt = .error e) :
    extractWithRetryGo perform videoId attempt (remaining + 1) last =
      ((extractWithRetryGo perform videoId (attempt + 1) remaining (some e)).1,
       (extractWithRetryGo perform videoId (attempt + 1) remaining (some e)).2
         + 1) := by
  simp [extractWithRetryGo, h]

/-- Helper: when every available attempt fails, the loop performs all of them
and surfaces the error of the last attempt. -/
theorem extractWithRetryGo_all_fail
    (perform : Nat → Except TranscriptError VideoTranscript) (videoId : String)
    (errs : Nat → TranscriptError) :
    ∀ remaining attempt last, 1 ≤ remaining →
    (∀ k, attempt ≤ k → k < attempt + remaining → perform k = .error (errs k)) →
    extractWithRetryGo perform videoId attempt remaining last =
      (.error (errs (attempt + remaining - 1)), remaining) := by
  intro remaining
  induction remaining with
  | zero => intro attempt last h; omega
  | succ m ih =>
    intro attempt last _ hk
    have h1 : perform attempt = .error (errs attempt) :=
      hk attempt (Nat.le_refl _) (by omega)
    cases m with
    | zero =>
      simp [extractWithRetryGo, h1]
    | succ m2 =>
      have h2 := ih (attempt + 1) (some (errs attempt)) (by omega)
        (fun k hk1 hk2 => hk k (by omega) (by omega))
      rw [extractWithRetryGo_step perform videoId attempt (m2 + 1) last
        (errs attempt) h1, h2]
      have h4 : attempt + 1 + (m2 + 1) - 1 = attempt + (m2 + 1 + 1) - 1 := by
        omega
      simp [h4]

/-- Helper: when the first success happens at attempt `j` within the budget,
the loop stops there having performed exactly `j - attempt + 1` attempts. -/
theorem extractWithRetryGo_first_success
    (perform : Nat → Except TranscriptError VideoTranscript) (videoId : String)
    (t : VideoTranscript) :
    ∀ remaining attempt last j, attempt ≤ j → j < attempt + remaining →
    (∀ k, attempt ≤ k → k < j → ∃ e, perform k = .error e) →
    perform j = .ok t →
    extractWithRetryGo perform videoId attempt remaining last =
      (.ok t, j + 1 - attempt) := by
  intro remaining
  induction remaining with
  | zero => intro attempt last j h1 h2; omega
  | succ m ih =>
    intro attempt last j h1 h2 hfail hok
    rcases Nat.eq_or_lt_of_le h1 with heq | hlt
    · have hok2 : perform attempt = .ok t := by rw [heq]; exact hok
      have hje : j + 1 - attempt = 1 := by omega
      simp [extractWithRetryGo, hok2, hje]
    · obtain ⟨e, he⟩ := hfail attempt (Nat.le_refl _) hlt
      have h3 := ih (attempt + 1) (some e) j (by omega) (by omega)
        (fun k hk1 hk2 => hfail k (by omega) hk2) hok
      rw [extractWithRetryGo_step perform videoId attempt m last e he, h3]
      have h5 : j + 1 - (attempt + 1) + 1 = j + 1 - attempt := by omega
      simp only [h5]


/-- C1 (amended): the Extractor's attempt loop `extractWithRetry` applies no
error classification — every failed attempt, terminal or transient alike, is
retried up to the configured attempt ceiling, and when all attempts fail the
error of the LAST attempt propagates (not the first); a first success at
attempt `j` stops the loop after exactly `j` attempts.  Terminal-error
short-circuiting exists only in the BulkProcessor's per-item loop, not here. -/
theorem extractWithRetry_retries_every_error
    (perform : Nat → Except TranscriptError VideoTranscript) (videoId : String)
    (n : Nat) (errs : Nat → TranscriptError) (t : VideoTranscript) (j : Nat)
    (hn : 1 ≤ n) :
    ((∀ k, 1 ≤ k → k ≤ n → perform k = .error (errs k)) →
      extractWithRetry perform videoId n = (.error (errs n), n)) ∧
    (1 ≤ j → j ≤ n →
      (∀ k, 1 ≤ k → k < j → ∃ e, perform k = .error e) →
      perform j = .ok t →
      extractWithRetry perform videoId n = (.ok t, j)) := by
  constructor
  · intro hk
    have h := extractWithRetryGo_all_fail perform videoId errs n 1 none hn
      (fun k h1 h2 => hk k h1 (by omega))
    rw [extractWithRetry, h]
    have : 1 + n - 1 = n := by omega
    rw [this]
  · intro hj1 hj2 hfail hok
    have h := extractWithRetryGo_first_success perform videoId t n 1 none j hj1
      (by omega) hfail hok
    rw [extractWithRetry, h]
    have : j + 1 - 1 = j := by omega
    rw [this]

/-- Terminal-classified error used in the retry counterexamples: the page
source reports the video as private on every attempt. -/
def privateAttemptError : TranscriptError :=
  { message := "Video is private", code := .PRIVATE_VIDEO,
    videoId := "dQw4w9WgXcQ" }

/-- C1 counterexample: with the default `retryAttempts = 3` and a page source
failing with terminal `PRIVATE_VIDEO` on attempt 1 (and every attempt),
`extractWithRetry` performs 3 attempts — the terminal error is retried, it
does not propagate immediately after the first attempt. -/
theorem extractWithRetry_private_is_retried :
    (extractWithRetry (fun _ => .error privateAttemptError) "dQw4w9WgXcQ" 3).2
      = 3 ∧
    ¬ ((extractWithRetry (fun _ => .error privateAttemptError)
        "dQw4w9WgXcQ" 3).2 = 1) := by
  constructor <;> decide

/-- Sample transcript value used to instantiate data binders in witnesses. -/
def sampleTranscript : VideoTranscript :=
  { videoId := "dQw4w9WgXcQ", title := "Sample", channel := "Channel",
    duration := 212, language := "en", isAutoGenerated := false,
    segments := [] }

/-- Witness for C1 (amended) at a concrete input: all three attempts fail with
the private-video error, so the loop performs 3 attempts and surfaces it. -/
theorem extractWithRetry_retries_every_error_witness :
    extractWithRetry (fun _ => .error privateAttemptError) "dQw4w9WgXcQ" 3 =
      (.error privateAttemptError, 3) :=
  (extractWithRetry_retries_every_error
    (fun _ => .error privateAttemptError) "dQw4w9WgXcQ" 3
    (fun _ => privateAttemptError) sampleTranscript 1 (by decide)).1
    (fun _ _ _ => rfl)

/-- Embedding of the `BulkProcessResult` interface
(`bulk-processor.service.ts:15-21`). -/
structure BulkProcessResult where
  videoId : String
  success : Bool
  transcript : Option VideoTranscript
  formatted : Option String
  error : Option String
  deriving DecidableEq, Repr

/-- Failure value thrown out of `BulkProcessorService.processVideo`: either a
classified `TranscriptError` or the plain `Error('Processing failed')`
fallback. -/
inductive BulkFailure where
  | classified (e : TranscriptError)
  | plain (message : String)
  deriving DecidableEq, Repr

/-- Message of a bulk failure, as read by `processBulk`'s catch block
(`error instanceof Error ? error.message : 'Unknown error'`). -/
def BulkFailure.message : BulkFailure → String
  | .classified e => e.message
  | .plain m => m

/-- Embedding of the `nonRetryableCodes` list of
`BulkProcessorService.processVideo` (`bulk-processor.service.ts:164-170`).
Note `AGE_RESTRICTED` and `UNKNOWN` are absent: the bulk loop does retry
those. -/
def nonRetryableCodes : List ErrorCode :=
  [.VIDEO_NOT_FOUND, .PRIVATE_VIDEO, .DELETED_VIDEO, .INVALID_VIDEO_ID,
   .TRANSCRIPT_NOT_AVAILABLE]

/-- Embedding of the attempt loop of `BulkProcessorService.processVideo`
(`bulk-processor.service.ts:129-184`).  `extract` gives the outcome of the
`extractor.extractTranscript` invocation on each attempt (1-indexed); `fmt`
is the optional formatting step (`formatter.format` is a total
string-producing function); the loop breaks without further attempts when the
error carries one of the `nonRetryableCodes`, and otherwise retries while
attempts remain; the final recorded error is re-thrown.  The second component
counts the `extractTranscript` invocations performed. -/
def processVideoGo (extract : Nat → Except TranscriptError VideoTranscript)
    (fmt : Option (VideoTranscript → String)) (videoId : String) :
    Nat → Nat → Option TranscriptError →
      Except BulkFailure BulkProcessResult × Nat
  | _, 0, last =>
    ((match last with
      | some e => Except.error (BulkFailure.classified e)
      | none => Except.error (BulkFailure.plain "Processing failed")), 0)
  | attempt, remaining + 1, _ =>
    match extract attempt with
    | .ok t =>
      (.ok { videoId := videoId, success := true, transcript := some t,
             formatted := fmt.map (fun f => f t), error := none }, 1)
    | .error e =>
      if nonRetryableCodes.contains e.code then
        (.error (.classified e), 1)
      else
        let r := processVideoGo extract fmt videoId (attempt + 1) remaining
          (some e)
        (r.1, r.2 + 1)

/-- Embedding of `BulkProcessorService.processVideo`: run the per-item loop
starting at attempt 1 with `retryAttempts` attempts available. -/
def processVideo (extract : Nat → Except TranscriptError VideoTranscript)
    (fmt : Option (VideoTranscript → String)) (retryAttempts : Nat)
    (videoId : String) : Except BulkFailure BulkProcessResult × Nat :=
  processVideoGo extract fmt videoId 1 retryAttempts none

/-- Embedding of one task body of `BulkProcessorService.processBulk`
(`bulk-processor.service.ts:75-116`): the item's result row is the
`processVideo` result on success and a `success:false` row carrying the error
message when `processVideo` throws.  The second component is the number of
`extractTranscript` invocations made for this item — the catch block performs
no further invocation. -/
def bulkItem (extract : Nat → Except TranscriptError VideoTranscript)
    (fmt : Option (VideoTranscript → String)) (retryAttempts : Nat)
    (videoId : String) : BulkProcessResult × Nat :=
  match processVideo extract fmt retryAttempts videoId with
  | (.ok r, n) => (r, n)
  | (.error f, n) =>
    ({ videoId := videoId, success := false, transcript := none,
       formatted := none, error := some (f.message) }, n)

/-- Helper: a retryably-failing invocation with budget left recurses with the
error recorded, adding one to the invocation count. -/
theorem processVideoGo_step
    (extract : Nat → Except TranscriptError VideoTranscript)
    (fmt : Option (VideoTranscript → String)) (videoId : String)
    (attempt remaining : Nat) (last : Option TranscriptError)
    (e : TranscriptError) (h : extract attempt = .error e)
    (hcode : nonRetryableCodes.contains e.code = false) :
    processVideoGo extract fmt videoId attempt (remaining + 1) last =
      ((processVideoGo extract fmt videoId (attempt + 1) remaining
          (some e)).1,
       (processVideoGo extract fmt videoId (attempt + 1) remaining
          (some e)).2 + 1) := by
  have hnm : ¬ (e.code ∈ nonRetryableCodes) := by simpa using hcode
  simp [processVideoGo, h, hnm]

/-- Helper: when every invocation fails with the same retryable-classified
error, the per-item loop performs all available attempts. -/
theorem processVideoGo_const_retryable
    (extract : Nat → Except TranscriptError VideoTranscript)
    (fmt : Option (VideoTranscript → String)) (videoId : String)
    (e : TranscriptError) (hfail : ∀ k, extract k = .error e)
    (hcode : nonRetryableCodes.contains e.code = false) :
    ∀ remaining attempt last, 1 ≤ remaining →
    processVideoGo extract fmt videoId attempt remaining last =
      (.error (.classified e), remaining) := by
  intro remaining
  induction remaining with
  | zero => intro attempt last h; omega
  | succ m ih =>
    intro attempt last _
    cases m with
    | zero => simp [processVideoGo, hfail attempt, hcode]
    | succ m2 =>
      have h2 := ih (attempt + 1) (some e) (by omega)
      rw [processVideoGo_step extract fmt videoId attempt (m2 + 1) last e
        (hfail attempt) hcode, h2]

/-- C2 (amended): the BulkProcessor's per-item loop invokes the Extractor's
`extractTranscript` up to `retryAttempts` times per item, not exactly once:
when the invocation fails with one of the five non-retryable codes it stops
after exactly one invocation, and when every invocation fails with a
retryable code it re-invokes the Extractor on every one of the
`retryAttempts` attempts.  In both cases the item's row records
`success := false` with the error's message, and the Extractor is not invoked
beyond the loop (the invocation count of the whole item equals the loop's). -/
theorem bulkItem_invocation_counts
    (extract : Nat → Except TranscriptError VideoTranscript)
    (fmt : Option (VideoTranscript → String)) (n : Nat) (videoId : String)
    (e : TranscriptError) (hn : 1 ≤ n)
    (hfail : ∀ k, extract k = .error e) :
    (nonRetryableCodes.contains e.code = true →
      bulkItem extract fmt n videoId =
        ({ videoId := videoId, success := false, transcript := none,
           formatted := none, error := some e.message }, 1)) ∧
    (nonRetryableCodes.contains e.code = false →
      bulkItem extract fmt n videoId =
        ({ videoId := videoId, success := false, transcript := none,
           formatted := none, error := some e.message }, n)) := by
  constructor
  · intro hcode
    obtain ⟨m, rfl⟩ : ∃ m, n = m + 1 := ⟨n - 1, by omega⟩
    have hmem : e.code ∈ nonRetryableCodes := by simpa using hcode
    simp [bulkItem, processVideo, processVideoGo, hfail 1, hmem,
      BulkFailure.message]
  · intro hcode
    have h := processVideoGo_const_retryable extract fmt videoId e hfail hcode
      n 1 none hn
    simp [bulkItem, processVideo, h, BulkFailure.message]

/-- Retryable-classified error used in the bulk-retry counterexample: every
`extractTranscript` invocation fails with a network error. -/
def networkAttemptError : TranscriptError :=
  { message := "Network error", code := .NETWORK_ERROR,
    videoId := "dQw4w9WgXcQ" }

/-- C2 counterexample: with `retryAttempts = 3` (the default) and an Extractor
whose invocation always fails with the retryable `NETWORK_ERROR`, the
BulkProcessor invokes `extractTranscript` 3 times for the item, not exactly
once. -/
theorem bulkItem_reinvokes_extractor :
    (bulkItem (fun _ => .error networkAttemptError) none 3 "dQw4w9WgXcQ").2
      = 3 ∧
    ¬ ((bulkItem (fun _ => .error networkAttemptError) none 3
        "dQw4w9WgXcQ").2 = 1) := by
  constructor <;> decide

/-- Witness for C2 (amended) at a concrete input: a terminal `PRIVATE_VIDEO`
failure is not re-attempted by the per-item loop — one invocation, failed
row. -/
theorem bulkItem_invocation_counts_witness :
    bulkItem (fun _ => .error privateAttemptError) none 3 "dQw4w9WgXcQ" =
      ({ videoId := "dQw4w9WgXcQ", success := false, transcript := none,
         formatted := none, error := some privateAttemptError.message }, 1) :=
  (bulkItem_invocation_counts (fun _ => .error privateAttemptError) none 3
    "dQw4w9WgXcQ" privateAttemptError (by decide) (fun _ => rfl)).1 (by decide)

/-- Embedding of the duplicate removal `[...new Set(videoIds)]` of
`BulkProcessorService.processBulk` (`bulk-processor.service.ts:61`):
a JavaScript `Set` iterates in insertion order, so the spread keeps the first
occurrence of each id, in order.  `seen` accumulates the ids already kept. -/
def dedupFirstAux (seen : List String) : List String → List String
  | [] => []
  | x :: xs =>
    if seen.contains x then dedupFirstAux seen xs
    else x :: dedupFirstAux (seen ++ [x]) xs

/-- Embedding of `[...new Set(videoIds)]`: first-occurrence
de-duplication. -/
def dedupFirst (xs : List String) : List String :=
  dedupFirstAux [] xs

/-- Reformulation of first-occurrence de-duplication following the claim\'s
words: scan the input left to right and append each id the first time it is
seen, so the output preserves the order of first occurrence.  Written from
the claim, to be compared with `dedupFirst`. -/
def dedupFirstSpec (xs : List String) : List String :=
  xs.foldl (fun acc x => if x ∈ acc then acc else acc ++ [x]) []

/-- Helper: membership in the scan output is membership in the input minus
the already-seen ids. -/
theorem mem_dedupFirstAux (a : String) :
    ∀ (xs seen : List String),
    (a ∈ dedupFirstAux seen xs ↔ (a ∈ xs ∧ ¬ (a ∈ seen))) := by
  intro xs
  induction xs with
  | nil => intro seen; simp [dedupFirstAux]
  | cons x xs ih =>
    intro seen
    by_cases hx : x ∈ seen
    · have hcb : seen.contains x = true := by simpa using hx
      simp only [dedupFirstAux, hcb, if_true, List.mem_cons]
      rw [ih seen]
      constructor
      · rintro ⟨h1, h2⟩
        exact ⟨Or.inr h1, h2⟩
      · rintro ⟨h1, h2⟩
        rcases h1 with rfl | h1
        · exact absurd hx h2
        · exact ⟨h1, h2⟩
    · have hcb : seen.contains x = false := by simpa using hx
      simp only [dedupFirstAux, hcb, Bool.false_eq_true, if_false,
        List.mem_cons]
      rw [ih (seen ++ [x])]
      simp only [List.mem_append, List.mem_singleton]
      by_cases hax : a = x
      · subst hax
        simp [hx]
      · simp only [hax, false_or, or_false]

/-- Helper: the scan output has no duplicates and avoids the seen ids. -/
theorem nodup_dedupFirstAux :
    ∀ (xs seen : List String), (dedupFirstAux seen xs).Nodup ∧
      ∀ a ∈ dedupFirstAux seen xs, ¬ (a ∈ seen) := by
  intro xs
  induction xs with
  | nil => intro seen; simp [dedupFirstAux]
  | cons x xs ih =>
    intro seen
    by_cases hx : x ∈ seen
    · have hcb : seen.contains x = true := by simpa using hx
      simpa only [dedupFirstAux, hcb, if_true] using ih seen
    · have hcb : seen.contains x = false := by simpa using hx
      obtain ⟨ihn, ihs⟩ := ih (seen ++ [x])
      simp only [dedupFirstAux, hcb, Bool.false_eq_true, if_false]
      constructor
      · refine List.nodup_cons.mpr ⟨?_, ihn⟩
        intro hmem
        have h2 := ihs x hmem
        simp at h2
      · intro a ha
        rcases List.mem_cons.mp ha with rfl | ha
        · exact hx
        · intro hc
          exact ihs a ha (by simp [hc])

/-- Helper: the scan output is a subsequence of the input. -/
theorem dedupFirstAux_sublist :
    ∀ (xs seen : List String), List.Sublist (dedupFirstAux seen xs) xs := by
  intro xs
  induction xs with
  | nil => intro seen; simp [dedupFirstAux]
  | cons x xs ih =>
    intro seen
    by_cases hx : x ∈ seen
    · have hcb : seen.contains x = true := by simpa using hx
      simp only [dedupFirstAux, hcb, if_true]
      exact (ih seen).cons x
    · have hcb : seen.contains x = false := by simpa using hx
      simp only [dedupFirstAux, hcb, Bool.false_eq_true, if_false]
      exact List.Sublist.cons₂ x (ih (seen ++ [x]))

/-- Helper: the claim-side left-to-right scan, from any accumulator, appends
the de-duplication of the unseen elements. -/
theorem dedupFirstAux_foldl (xs : List String) :
    ∀ acc : List String,
    xs.foldl (fun acc x => if x ∈ acc then acc else acc ++ [x]) acc =
      acc ++ dedupFirstAux acc xs := by
  induction xs with
  | nil => intro acc; simp [dedupFirstAux]
  | cons x xs ih =>
    intro acc
    by_cases hx : x ∈ acc
    · have hcb : acc.contains x = true := by simpa using hx
      simp only [List.foldl_cons, if_pos hx, dedupFirstAux, hcb, if_true]
      exact ih acc
    · have hcb : acc.contains x = false := by simpa using hx
      simp only [List.foldl_cons, if_neg hx, dedupFirstAux, hcb,
        Bool.false_eq_true, if_false]
      rw [ih (acc ++ [x])]
      simp

/-- Helper: membership in the de-duplicated list is membership in the
input. -/
theorem mem_dedupFirst (a : String) (xs : List String) :
    a ∈ dedupFirst xs ↔ a ∈ xs := by
  rw [dedupFirst, mem_dedupFirstAux]
  simp

/-- Helper: the de-duplicated list has no duplicates. -/
theorem nodup_dedupFirst (xs : List String) : (dedupFirst xs).Nodup :=
  (nodup_dedupFirstAux xs []).1

/-- Helper: the de-duplicated list is a subsequence of the input. -/
theorem dedupFirst_sublist (xs : List String) :
    List.Sublist (dedupFirst xs) xs :=
  dedupFirstAux_sublist xs []

/-- Helper: `dedupFirst` equals the claim-side first-seen scan, so it
preserves the order of first occurrence. -/
theorem dedupFirst_eq_spec (xs : List String) :
    dedupFirst xs = dedupFirstSpec xs := by
  have h := dedupFirstAux_foldl xs []
  simpa [dedupFirst, dedupFirstSpec] using h.symm

/-- Embedding of `BulkProcessorService.processBulk`
(`bulk-processor.service.ts:49-124`) as its sequential interleaving:
duplicates are removed up front, each unique id is handled by exactly one
task whose `processVideo` failure is caught and recorded as a
`success := false` row, and `Promise.all` of the tasks never rejects because
every task catches its own errors.  The bounded-concurrency dispatch via
`pLimit(concurrency)` only affects completion order, which in this pure model
equals submission order. -/
def processBulk
    (extract : String → Nat → Except TranscriptError VideoTranscript)
    (fmt : Option (VideoTranscript → String)) (retryAttempts : Nat)
    (videoIds : List String) : List BulkProcessResult :=
  (dedupFirst videoIds).map
    (fun id => (bulkItem (extract id) fmt retryAttempts id).1)

/-- Helper: a successful invocation returns the success row at once. -/
theorem processVideoGo_ok
    (extract : Nat → Except TranscriptError VideoTranscript)
    (fmt : Option (VideoTranscript → String)) (videoId : String)
    (attempt remaining : Nat) (last : Option TranscriptError)
    (t : VideoTranscript) (h : extract attempt = .ok t) :
    processVideoGo extract fmt videoId attempt (remaining + 1) last =
      (.ok { videoId := videoId, success := true, transcript := some t,
             formatted := fmt.map (fun f => f t), error := none }, 1) := by
  simp [processVideoGo, h]

/-- Helper: a non-retryable failure stops the loop after one invocation. -/
theorem processVideoGo_terminal
    (extract : Nat → Except TranscriptError VideoTranscript)
    (fmt : Option (VideoTranscript → String)) (videoId : String)
    (attempt remaining : Nat) (last : Option TranscriptError)
    (e : TranscriptError) (h : extract attempt = .error e)
    (hcode : nonRetryableCodes.contains e.code = true) :
    processVideoGo extract fmt videoId attempt (remaining + 1) last =
      (.error (.classified e), 1) := by
  have hmem : e.code ∈ nonRetryableCodes := by simpa using hcode
  simp [processVideoGo, h, hmem]

/-- Helper: a successful per-item result always carries the item's id. -/
theorem processVideoGo_ok_videoId
    (extract : Nat → Except TranscriptError VideoTranscript)
    (fmt : Option (VideoTranscript → String)) (videoId : String) :
    ∀ remaining attempt last r,
    (processVideoGo extract fmt videoId attempt remaining last).1 = .ok r →
    r.videoId = videoId := by
  intro remaining
  induction remaining with
  | zero =>
    intro attempt last r h
    cases last <;> simp [processVideoGo] at h
  | succ m ih =>
    intro attempt last r h
    cases hx : extract attempt with
    | ok t =>
      rw [processVideoGo_ok extract fmt videoId attempt m last t hx] at h
      simp at h
      cases h
      rfl
    | error e =>
      by_cases hc : nonRetryableCodes.contains e.code = true
      · rw [processVideoGo_terminal extract fmt videoId attempt m last e hx
          hc] at h
        simp at h
      · have hcf : nonRetryableCodes.contains e.code = false := by
          simpa using hc
        rw [processVideoGo_step extract fmt videoId attempt m last e hx
          hcf] at h
        exact ih (attempt + 1) (some e) r h

/-- Helper: every bulk result row carries the id of its item. -/
theorem bulkItem_videoId
    (extract : Nat → Except TranscriptError VideoTranscript)
    (fmt : Option (VideoTranscript → String)) (n : Nat) (id : String) :
    ((bulkItem extract fmt n id).1).videoId = id := by
  unfold bulkItem
  cases hp : processVideo extract fmt n id with
  | mk res cnt =>
    cases res with
    | ok r =>
      have : (processVideoGo extract fmt id 1 n none).1 = .ok r := by
        have := congrArg Prod.fst hp
        simpa [processVideo] using this
      simpa using processVideoGo_ok_videoId extract fmt id n 1 none r this
    | error f => rfl

/-- Embedding of the histogram update `languages[lang] = (languages[lang]
|| 0) + 1` of `generateReport`, on an insertion-ordered association list (the
JavaScript object preserves string-key insertion order). -/
def bumpLang : List (String × Nat) → String → List (String × Nat)
  | [], lg => [(lg, 1)]
  | (k, n) :: rest, lg =>
    if k = lg then (k, n + 1) :: rest else (k, n) :: bumpLang rest lg

/-- Lookup `languages[lang] || 0` on the association-list histogram. -/
def histLookup : List (String × Nat) → String → Nat
  | [], _ => 0
  | (k, n) :: rest, lg => if k = lg then n else histLookup rest lg

/-- Histogram step of `generateReport`'s loop over successful results:
rows without a transcript are skipped (`if (result.transcript)`). -/
def langStep (h : List (String × Nat)) (r : BulkProcessResult) :
    List (String × Nat) :=
  match r.transcript with
  | some t => bumpLang h t.language
  | none => h

/-- Duration contributed by one successful row
(`result.transcript.duration || 0`, 0 when the transcript is absent). -/
def durOf (r : BulkProcessResult) : Nat :=
  match r.transcript with
  | some t => t.duration
  | none => 0

/-- Shape of the report returned by `BulkProcessorService.generateReport`
(`bulk-processor.service.ts:275-310`). -/
structure BulkReport where
  total : Nat
  successful : Nat
  failed : Nat
  successRate : ℚ
  errors : List (String × String)
  languages : List (String × Nat)
  totalDuration : Nat
  averageDuration : ℚ
  deriving DecidableEq, Repr

/-- Embedding of `BulkProcessorService.generateReport`: pure aggregation of a
result list into counts, success rate, language histogram, durations and the
ordered failure list. -/
def generateReport (results : List BulkProcessResult) : BulkReport :=
  let successful := results.filter (fun r => r.success)
  let failed := results.filter (fun r => !r.success)
  let languages := successful.foldl langStep []
  let totalDuration := (successful.map durOf).sum
  { total := results.length
    successful := successful.length
    failed := failed.length
    successRate := if results.length > 0 then
        ((successful.length : ℚ) / (results.length : ℚ)) * 100 else 0
    errors := failed.map (fun r => (r.videoId, r.error.getD "Unknown error"))
    languages := languages
    totalDuration := totalDuration
    averageDuration := if successful.length > 0 then
        (totalDuration : ℚ) / (successful.length : ℚ) else 0 }

/-- Helper: a filter by a Bool predicate and by its negation partition the
list's length. -/
theorem length_filter_split (p : BulkProcessResult → Bool)
    (l : List BulkProcessResult) :
    (l.filter p).length + (l.filter (fun a => !(p a))).length = l.length := by
  induction l with
  | nil => rfl
  | cons x xs ih =>
    cases hx : p x <;> simp [List.filter_cons, hx] <;> omega

/-- Helper: bumping a language increments exactly that language's count. -/
theorem histLookup_bumpLang (h : List (String × Nat)) (l lg : String) :
    histLookup (bumpLang h l) lg =
      histLookup h lg + (if l = lg then 1 else 0) := by
  induction h with
  | nil =>
    by_cases hll : l = lg <;> simp [bumpLang, histLookup, hll]
  | cons p rest ih =>
    obtain ⟨k, n⟩ := p
    by_cases hkl : k = l
    · subst hkl
      by_cases hkg : k = lg <;> simp [bumpLang, histLookup, hkg]
    · by_cases hkg : k = lg
      · subst hkg
        have hlk : ¬ l = k := fun h2 => hkl h2.symm
        simp [bumpLang, histLookup, hkl, hlk]
      · simp [bumpLang, histLookup, hkl, hkg, ih]

/-- Helper: the histogram fold counts, per language, the successful rows whose
transcript carries that language. -/
theorem histLookup_foldl (rs : List BulkProcessResult) :
    ∀ (acc : List (String × Nat)) (lg : String),
    histLookup (rs.foldl langStep acc) lg =
      histLookup acc lg +
        (rs.filter (fun r => match r.transcript with
          | some t => t.language == lg
          | none => false)).length := by
  induction rs with
  | nil => intro acc lg; simp
  | cons r rs ih =>
    intro acc lg
    cases hr : r.transcript with
    | none =>
      simp only [List.foldl_cons, langStep, hr, List.filter_cons]
      rw [ih]
      simp
    | some t =>
      by_cases hl : t.language = lg
      · simp only [List.foldl_cons, langStep, hr, List.filter_cons, hl]
        rw [ih, histLookup_bumpLang]
        simp [hl]
        omega
      · simp only [List.foldl_cons, langStep, hr, List.filter_cons]
        rw [ih, histLookup_bumpLang]
        simp [hl]

/-- C9: `generateReport` is a pure aggregation whose fields satisfy: `total`
is the number of results; `successful` and `failed` count the `success:true`
and `success:false` rows and partition the total; `successRate` is
`successful/total*100` (0 for an empty list); the language histogram counts,
per language, exactly the successful rows carrying that language (failures
contribute nothing); `totalDuration` sums the successful transcripts'
durations; `averageDuration` is `totalDuration/successful` (0 when none
succeeded); and `errors` lists `(videoId, error)` for each failed row in
result order. -/
theorem generateReport_correct (results : List BulkProcessResult) :
    (generateReport results).total = results.length ∧
    (generateReport results).successful =
      (results.filter (fun r => r.success)).length ∧
    (generateReport results).failed =
      (results.filter (fun r => !r.success)).length ∧
    (generateReport results).successful + (generateReport results).failed =
      (generateReport results).total ∧
    (results = [] → (generateReport results).successRate = 0) ∧
    (results ≠ [] →
      (generateReport results).successRate * (results.length : ℚ) =
        ((results.filter (fun r => r.success)).length : ℚ) * 100) ∧
    (∀ lg, histLookup (generateReport results).languages lg =
      ((results.filter (fun r => r.success)).filter
        (fun r => match r.transcript with
          | some t => t.language == lg
          | none => false)).length) ∧
    (generateReport results).totalDuration =
      ((results.filter (fun r => r.success)).map durOf).sum ∧
    ((results.filter (fun r => r.success)).length = 0 →
      (generateReport results).averageDuration = 0) ∧
    ((results.filter (fun r => r.success)).length ≠ 0 →
      (generateReport results).averageDuration *
        (((results.filter (fun r => r.success)).length : ℚ)) =
        ((generateReport results).totalDuration : ℚ)) ∧
    (generateReport results).errors =
      (results.filter (fun r => !r.success)).map
        (fun r => (r.videoId, r.error.getD "Unknown error")) := by
  refine ⟨rfl, rfl, rfl, length_filter_split _ _, ?_, ?_, ?_, rfl, ?_, ?_, rfl⟩
  · intro h
    subst h
    rfl
  · intro h
    have hlen : 0 < results.length := List.length_pos.mpr h
    have hq : ((results.length : ℚ)) ≠ 0 := by
      exact_mod_cast Nat.pos_iff_ne_zero.mp hlen
    simp only [generateReport, if_pos hlen]
    field_simp
  · intro lg
    have h := histLookup_foldl (results.filter (fun r => r.success)) [] lg
    simpa [generateReport, histLookup] using h
  · intro h
    simp [generateReport, h]
  · intro h
    have hpos : 0 < (results.filter (fun r => r.success)).length :=
      Nat.pos_of_ne_zero h
    have hq : (((results.filter (fun r => r.success)).length : ℚ)) ≠ 0 := by
      exact_mod_cast h
    simp only [generateReport, if_pos hpos]
    field_simp

/-- Sample successful row used in report witnesses. -/
def sampleSuccessRow : BulkProcessResult :=
  { videoId := "dQw4w9WgXcQ", success := true,
    transcript := some sampleTranscript, formatted := none, error := none }

/-- Sample failed row used in report witnesses. -/
def sampleFailRow : BulkProcessResult :=
  { videoId := "0000000000B", success := false, transcript := none,
    formatted := none, error := some "Video not found" }

/-- Witness for C9 at a concrete input: on one success and one failure, the
success-rate identity holds with the non-empty hypothesis discharged. -/
theorem generateReport_correct_witness :
    (generateReport [sampleSuccessRow, sampleFailRow]).successRate *
      (([sampleSuccessRow, sampleFailRow] :
          List BulkProcessResult).length : ℚ) =
      ((([sampleSuccessRow, sampleFailRow] :
          List BulkProcessResult).filter (fun r => r.success)).length : ℚ)
        * 100 :=
  (generateReport_correct [sampleSuccessRow, sampleFailRow]).2.2.2.2.2.1
    (by simp)

/-- Helper: the result rows of a bulk run carry exactly the de-duplicated
input ids, in order. -/
theorem processBulk_map_videoId
    (extract : String → Nat → Except TranscriptError VideoTranscript)
    (fmt : Option (VideoTranscript → String)) (n : Nat)
    (ids : List String) :
    (processBulk extract fmt n ids).map (fun r => r.videoId) =
      dedupFirst ids := by
  rw [processBulk, List.map_map]
  have hcomp : ((fun r => r.videoId) ∘
      (fun id => (bulkItem (extract id) fmt n id).1)) = fun id => id := by
    funext id
    simp [Function.comp, bulkItem_videoId]
  rw [hcomp]
  simp

/-- C8: `processBulk` de-duplicates its input before processing — the rows'
ids are exactly `dedupFirst` of the input, which equals the claim-side
left-to-right first-seen scan (preserving first-occurrence order), is
duplicate-free, has the same members as the input, and is a subsequence of
the input — and each unique id yields exactly one row: input `[A, A, B]`
yields a report with `total = 2` and exactly one row each for A and B,
whatever the extractor does. -/
theorem processBulk_dedup
    (extract : String → Nat → Except TranscriptError VideoTranscript)
    (fmt : Option (VideoTranscript → String)) (n : Nat)
    (videoIds : List String) :
    (processBulk extract fmt n videoIds).map (fun r => r.videoId) =
      dedupFirst videoIds ∧
    dedupFirst videoIds = dedupFirstSpec videoIds ∧
    (dedupFirst videoIds).Nodup ∧
    (∀ a, a ∈ dedupFirst videoIds ↔ a ∈ videoIds) ∧
    List.Sublist (dedupFirst videoIds) videoIds ∧
    (generateReport (processBulk extract fmt n ["A", "A", "B"])).total = 2 ∧
    ((processBulk extract fmt n ["A", "A", "B"]).filter
      (fun r => r.videoId == "A")).length = 1 ∧
    ((processBulk extract fmt n ["A", "A", "B"]).filter
      (fun r => r.videoId == "B")).length = 1 := by
  have hd : dedupFirst ["A", "A", "B"] = ["A", "B"] := by decide
  have hpb : processBulk extract fmt n ["A", "A", "B"] =
      [(bulkItem (extract "A") fmt n "A").1,
       (bulkItem (extract "B") fmt n "B").1] := by
    rw [processBulk, hd]
    rfl
  refine ⟨processBulk_map_videoId extract fmt n videoIds,
    dedupFirst_eq_spec _, nodup_dedupFirst _,
    (fun a => mem_dedupFirst a _), dedupFirst_sublist _, ?_, ?_, ?_⟩
  · show (processBulk extract fmt n ["A", "A", "B"]).length = 2
    have h1 := congrArg List.length
      (processBulk_map_videoId extract fmt n ["A", "A", "B"])
    simpa [hd] using h1
  · rw [hpb]
    simp [List.filter_cons, bulkItem_videoId]
  · rw [hpb]
    simp [List.filter_cons, bulkItem_videoId]

/-- Bulk extraction oracle for the partial-failure example: item B always
fails with the terminal `VIDEO_NOT_FOUND`; every other item succeeds at
once. -/
def exampleExtractorABC (id : String) :
    Nat → Except TranscriptError VideoTranscript :=
  fun _ =>
    if id = "B" then
      .error { message := "Video not found", code := .VIDEO_NOT_FOUND,
               videoId := "B" }
    else
      .ok { sampleTranscript with videoId := id }

/-- C4: a failing item never aborts the bulk run — whatever the extractor
does on every item, the run returns exactly one row per unique input id (so
it completes and never throws for item failures), and on the concrete input
`[A, B, C]` with B always failing as `VIDEO_NOT_FOUND` while A and C succeed,
the report has `total = 3`, `successful = 2`, `failed = 1` and exactly the
single error entry for B. -/
theorem processBulk_isolates_failures
    (extract : String → Nat → Except TranscriptError VideoTranscript)
    (fmt : Option (VideoTranscript → String)) (n : Nat)
    (videoIds : List String) :
    (processBulk extract fmt n videoIds).length =
      (dedupFirst videoIds).length ∧
    (processBulk extract fmt n videoIds).map (fun r => r.videoId) =
      dedupFirst videoIds ∧
    (∀ id, id ∈ videoIds →
      ∃ r, r ∈ processBulk extract fmt n videoIds ∧ r.videoId = id) ∧
    (generateReport
      (processBulk exampleExtractorABC none 3 ["A", "B", "C"])).total = 3 ∧
    (generateReport
      (processBulk exampleExtractorABC none 3 ["A", "B", "C"])).successful
      = 2 ∧
    (generateReport
      (processBulk exampleExtractorABC none 3 ["A", "B", "C"])).failed = 1 ∧
    (generateReport
      (processBulk exampleExtractorABC none 3 ["A", "B", "C"])).errors =
      [("B", "Video not found")] := by
  refine ⟨?_, processBulk_map_videoId extract fmt n videoIds, ?_, rfl, rfl,
    rfl, rfl⟩
  · have h1 := congrArg List.length
      (processBulk_map_videoId extract fmt n videoIds)
    simpa using h1
  · intro id hid
    have hd : id ∈ dedupFirst videoIds := (mem_dedupFirst id videoIds).mpr hid
    rw [← processBulk_map_videoId extract fmt n videoIds] at hd
    obtain ⟨r, hr, hrid⟩ := List.mem_map.mp hd
    exact ⟨r, hr, hrid⟩

/-- Modelled from the spec: the `lru-cache` npm dependency behind
`CacheService` (appended to `rate-limiter.service.ts` in this snapshot) is
not part of this repository's sources; its configured behavior (`max`,
`updateAgeOnGet: true`) is modelled from the spec's stated policy — entries
kept most-recently-used first, a hit refreshes recency, a write replaces and
trims to capacity evicting the least recently used.  The TTL clock (entries
older than the TTL treated as absent) is wall-clock behavior not referenced
by the claim and not modelled. -/
structure LRU where
  max : Nat
  entries : List (String × VideoTranscript)
  deriving DecidableEq, Repr

/-- Embedding of `CacheService.generateKey`: `videoId:lang` when a language
is given (JavaScript truthiness: the empty string behaves like no language),
else `videoId` alone. -/
def generateKey (videoId : String) (lang : Option String) : String :=
  match lang with
  | some l => if l = "" then videoId else videoId ++ ":" ++ l
  | none => videoId

/-- Model of the configured `LRUCache.get`: a hit moves the entry to the
most-recent position and returns it; a miss changes nothing. -/
def LRU.get (c : LRU) (k : String) : Option VideoTranscript × LRU :=
  match c.entries.find? (fun p => p.1 == k) with
  | some p =>
    (some p.2,
     { c with entries := p :: c.entries.filter (fun q => !(q.1 == k)) })
  | none => (none, c)

/-- Model of the configured `LRUCache.set`: remove any entry with the same
key, insert at the most-recent position, and trim to `max` entries, dropping
the least recently used. -/
def LRU.set (c : LRU) (k : String) (v : VideoTranscript) : LRU :=
  { c with entries :=
      (k, v) :: (c.entries.filter (fun q => !(q.1 == k))).take (c.max - 1) }

/-- C7: the cache as configured holds at most one entry per fingerprint
(a write first removes the old entry for the key, so the key list stays
duplicate-free and the new value wins on the next `get`), its size never
exceeds `max`, a write to a full cache with a fresh fingerprint evicts
exactly the least-recently-used (oldest-position) entry, a `get` that hits
moves the entry to the most-recent position while preserving the entry set,
and concretely with `max = 2` writing F1, F2, F3 in order leaves F1 evicted:
a subsequent `get` of F1 misses. -/
theorem cacheService_lru_correct (c : LRU) (k : String) (v : VideoTranscript)
    (hwf : (c.entries.map Prod.fst).Nodup) (hmax : 1 ≤ c.max) :
    ((c.set k v).entries.map Prod.fst).Nodup ∧
    ((c.set k v).get k).1 = some v ∧
    (c.entries.length ≤ c.max → (c.set k v).entries.length ≤ c.max) ∧
    (¬ (k ∈ c.entries.map Prod.fst) → c.entries.length = c.max →
      (c.set k v).entries = (k, v) :: c.entries.dropLast) ∧
    (∀ t c2, c.get k = (some t, c2) →
      c2.entries.head? = some (k, t) ∧
      (∀ a, a ∈ c2.entries ↔ a ∈ c.entries)) ∧
    (((((⟨2, []⟩ : LRU).set "F1" sampleTranscript).set "F2"
        sampleTranscript).set "F3" sampleTranscript).get "F1").1 = none := by
  refine ⟨?_, ?_, ?_, ?_, ?_, by decide⟩
  · rw [LRU.set]
    simp only [List.map_cons]
    have hsub : List.Sublist
        (((c.entries.filter (fun q => !(q.1 == k))).take
          (c.max - 1)).map Prod.fst)
        (c.entries.map Prod.fst) :=
      List.Sublist.map Prod.fst
        ((List.take_sublist _ _).trans (List.filter_sublist _))
    refine List.nodup_cons.mpr ⟨?_, hwf.sublist hsub⟩
    intro hk
    rw [List.mem_map] at hk
    obtain ⟨q, hq, hq2⟩ := hk
    have hq3 := (List.mem_filter.mp ((List.take_sublist _ _).subset hq)).2
    simp [hq2] at hq3
  · simp [LRU.set, LRU.get]
  · intro hlen
    rw [LRU.set]
    simp only [List.length_cons]
    have h1 : ((c.entries.filter (fun q => !(q.1 == k))).take
        (c.max - 1)).length ≤ c.max - 1 := by
      rw [List.length_take]
      omega
    omega
  · intro hnot hlen
    have hfe : c.entries.filter (fun q => !(q.1 == k)) = c.entries := by
      apply List.filter_eq_self.mpr
      intro q hq
      have hqk : q.1 ≠ k :=
        fun h => hnot (h ▸ List.mem_map_of_mem Prod.fst hq)
      simp [hqk]
    rw [LRU.set, hfe, List.dropLast_eq_take, hlen]
  · intro t c2 hget
    rw [LRU.get] at hget
    cases hf : c.entries.find? (fun p => p.1 == k) with
    | none =>
      rw [hf] at hget
      exact absurd hget (by simp)
    | some p =>
      rw [hf] at hget
      have ht2 : p.2 = t := by
        have := congrArg Prod.fst hget
        simpa using this
      have hc2 : ({ c with entries :=
          p :: c.entries.filter (fun q => !(q.1 == k)) } : LRU) = c2 :=
        congrArg Prod.snd hget
      have hpk : p.1 = k := by simpa using List.find?_some hf
      have hpm : p ∈ c.entries := List.mem_of_find?_eq_some hf
      have hp : p = (k, t) := by
        cases p
        simp_all
      constructor
      · rw [← hc2]
        simp [hp]
      · intro a
        rw [← hc2]
        simp only [List.mem_cons]
        constructor
        · rintro (rfl | ha)
          · exact hpm
          · exact (List.mem_filter.mp ha).1
        · intro ha
          by_cases hak : a.1 = k
          · left
            have := List.inj_on_of_nodup_map hwf ha hpm
            exact this (by rw [hak, hpk])
          · right
            exact List.mem_filter.mpr ⟨ha, by simp [hak]⟩

/-- Witness for C7 at a concrete input: an empty 2-entry cache is well formed
and a freshly written value is returned by the next `get`. -/
theorem cacheService_lru_correct_witness :
    (((⟨2, []⟩ : LRU).set "F1" sampleTranscript).get "F1").1 =
      some sampleTranscript :=
  (cacheService_lru_correct ⟨2, []⟩ "F1" sampleTranscript (by decide)
    (by decide)).2.1

/-- Configuration of `RateLimiterService` (`rate-limiter.service.ts:11-16`):
`maxRequests`, `windowMs` and the backoff `delayAfterLimit` (defaults 10,
60000 and 1000). -/
structure RLConfig where
  maxRequests : Nat
  windowMs : Nat
  delayAfterLimit : Nat
  deriving DecidableEq, Repr

/-- Embedding of `RateLimiterService.execute`
(`rate-limiter.service.ts:43-67`) as one step of a sequential trace: at
request time `now` the service reads the count of the FIXED window
`now / windowMs`; if it has reached `maxRequests` it waits `delayAfterLimit`
once and then — without re-evaluating the quota — starts the wrapped
operation, incrementing the count of the window containing the start time.
The inner `pLimit(maxRequests)` gate bounds simultaneous executions only and
never blocks a sequential trace of short operations; the periodic
`cleanupOldCounts` sweep deletes only windows no longer read.  Returns the
operation's start time and the updated window counts. -/
def executeStep (cfg : RLConfig) (counts : Nat → Nat) (now : Nat) :
    Nat × (Nat → Nat) :=
  let w := now / cfg.windowMs
  let start := if cfg.maxRequests ≤ counts w then
      now + cfg.delayAfterLimit else now
  let w2 := start / cfg.windowMs
  (start, fun x => if x = w2 then counts w2 + 1 else counts x)

/-- Trace of sequential `execute` calls at the given request times, from the
given window counts: the list of start times, one per request. -/
def runRequests (cfg : RLConfig) : List Nat → (Nat → Nat) → List Nat
  | [], _ => []
  | t :: ts, counts =>
    (executeStep cfg counts t).1 ::
      runRequests cfg ts (executeStep cfg counts t).2

/-- C3 counterexample: with `maxRequests = 2, windowMs = 1000` and the
default backoff of 1000 ms, cold-start requests at 900, 950, 1000 and
1050 ms all start immediately — the service counts per FIXED window
(`floor(now/1000)`), so two starts late in window 0 and two early in window
1 are four starts inside the single rolling 1-second window `[900, 1900)`,
more than the claimed rolling-window bound of `maxRequests = 2`. -/
theorem rateLimiter_rolling_window_violated :
    runRequests ⟨2, 1000, 1000⟩ [900, 950, 1000, 1050] (fun _ => 0) =
      [900, 950, 1000, 1050] ∧
    ((runRequests ⟨2, 1000, 1000⟩ [900, 950, 1000, 1050]
        (fun _ => 0)).filter
      (fun s => (900 ≤ s) && (s < 1900))).length = 4 ∧
    ¬ (((runRequests ⟨2, 1000, 1000⟩ [900, 950, 1000, 1050]
        (fun _ => 0)).filter
      (fun s => (900 ≤ s) && (s < 1900))).length ≤ 2) := by
  refine ⟨by decide, by decide, by decide⟩

/-- C3 (amended): the limiter counts starts per FIXED window of `windowMs`
(index `now / windowMs`), not per rolling window.  When the current fixed
window's count is below `maxRequests` the operation starts at the request
time; when the quota is exhausted the limiter delays admission exactly once
by `delayAfterLimit` and then starts the operation WITHOUT re-evaluating the
quota; the count of the start-time window is then incremented.  No request
is ever rejected or dropped: a trace of sequential requests yields exactly
one start per request, each within `delayAfterLimit` of its request time. -/
theorem rateLimiter_fixed_window_behavior (cfg : RLConfig)
    (counts : Nat → Nat) (now : Nat) (times : List Nat) :
    (counts (now / cfg.windowMs) < cfg.maxRequests →
      (executeStep cfg counts now).1 = now) ∧
    (cfg.maxRequests ≤ counts (now / cfg.windowMs) →
      (executeStep cfg counts now).1 = now + cfg.delayAfterLimit) ∧
    ((executeStep cfg counts now).2
        ((executeStep cfg counts now).1 / cfg.windowMs) =
      counts ((executeStep cfg counts now).1 / cfg.windowMs) + 1) ∧
    (runRequests cfg times counts).length = times.length ∧
    List.Forall₂ (fun t s => t ≤ s ∧ s ≤ t + cfg.delayAfterLimit) times
      (runRequests cfg times counts) := by
  have hlen : ∀ (ts : List Nat) (cs : Nat → Nat),
      (runRequests cfg ts cs).length = ts.length := by
    intro ts
    induction ts with
    | nil => intro cs; rfl
    | cons t ts ih => intro cs; simp [runRequests, ih]
  have hfa : ∀ (ts : List Nat) (cs : Nat → Nat),
      List.Forall₂ (fun t s => t ≤ s ∧ s ≤ t + cfg.delayAfterLimit) ts
        (runRequests cfg ts cs) := by
    intro ts
    induction ts with
    | nil => intro cs; rw [runRequests]; exact List.Forall₂.nil
    | cons t ts ih =>
      intro cs
      rw [runRequests]
      refine List.Forall₂.cons ?_ (ih _)
      simp only [executeStep]
      split
      · exact ⟨Nat.le_add_right _ _, Nat.le_refl _⟩
      · exact ⟨Nat.le_refl _, Nat.le_add_right _ _⟩
  refine ⟨?_, ?_, ?_, hlen times counts, hfa times counts⟩
  · intro h
    have h2 : ¬ (cfg.maxRequests ≤ counts (now / cfg.windowMs)) := by omega
    simp [executeStep, h2]
  · intro h
    simp [executeStep, h]
  · by_cases h : cfg.maxRequests ≤ counts (now / cfg.windowMs) <;>
      simp [executeStep, h]

/-- Witness for C3 (amended) at a concrete input: a cold window admits the
request immediately, and an exhausted window delays it by the backoff. -/
theorem rateLimiter_fixed_window_behavior_witness :
    (executeStep ⟨2, 1000, 1000⟩ (fun _ => 0) 900).1 = 900 ∧
    (executeStep ⟨2, 1000, 1000⟩ (fun _ => 2) 900).1 = 1900 :=
  ⟨(rateLimiter_fixed_window_behavior ⟨2, 1000, 1000⟩ (fun _ => 0) 900
      []).1 (by decide),
   (rateLimiter_fixed_window_behavior ⟨2, 1000, 1000⟩ (fun _ => 2) 900
      []).2.1 (by decide)⟩

/-- Parsed page data relevant to one `performExtraction` attempt: the
playability fields inspected by `checkVideoAvailability`, the details read
by `extractVideoMetadata` and the caption tracks from
`extractCaptionsData`. -/
structure PageData where
  playabilityStatus : Option String
  playabilityReason : Option String
  ageGate : Bool
  title : String
  author : String
  lengthSeconds : Nat
  captionTracks : List CaptionTrack
  deriving Repr

/-- Outcome of the page fetch of one attempt (`axiosInstance.get` plus
`extractInitialData`). -/
inductive FetchOutcome where
  | ok (d : PageData)
  | noPlayerResponse
  | status404
  | connAborted
  | axiosErr (msg : String)
  deriving Repr

/-- Outcome of the caption-segment fetch (`fetchTranscriptSegments`),
keyed by the selected track's base URL. -/
inductive SegOutcome where
  | ok (segs : List TranscriptSegment)
  | noEvents
  | status404
  | connAborted
  | axiosErr (msg : String)
  deriving Repr

/-- Network oracle: the outcome of the page fetch and of the segment fetch
on each attempt (attempts 1-indexed). -/
structure NetOracle where
  fetchAt : Nat → FetchOutcome
  segAt : Nat → String → SegOutcome

/-- Embedding of `checkVideoAvailability`
(`youtube-extractor.service.ts:205-224`): `UNPLAYABLE` and `LOGIN_REQUIRED`
classify as `PRIVATE_VIDEO`, `ERROR` as `DELETED_VIDEO`, and the desktop
legacy age gate as `AGE_RESTRICTED`. -/
def checkVideoAvailability (d : PageData) (videoId : String) :
    Option TranscriptError :=
  if d.playabilityStatus = some "UNPLAYABLE" then
    some { message := d.playabilityReason.getD "Video is unplayable",
           code := .PRIVATE_VIDEO, videoId := videoId }
  else if d.playabilityStatus = some "LOGIN_REQUIRED" then
    some { message := "Video is private", code := .PRIVATE_VIDEO,
           videoId := videoId }
  else if d.playabilityStatus = some "ERROR" then
    some { message := "Video not available", code := .DELETED_VIDEO,
           videoId := videoId }
  else if d.ageGate then
    some { message := "Video is age restricted", code := .AGE_RESTRICTED,
           videoId := videoId }
  else none

/-- Embedding of `performExtraction`
(`youtube-extractor.service.ts:116-177`) for one attempt: page fetch,
availability check, captions check, track selection, segment fetch and
transcript assembly, with the catch-block classification of axios failures
(HTTP 404 → `VIDEO_NOT_FOUND`, `ECONNABORTED` → `TIMEOUT`, other axios →
`NETWORK_ERROR`) and of plain errors (→ `UNKNOWN`).  The second component
counts the network calls of the attempt: the page fetch, plus the segment
fetch when it is reached. -/
def performExtraction (net : NetOracle) (attempt : Nat) (videoId : String)
    (lang : Option String) : Except TranscriptError VideoTranscript × Nat :=
  match net.fetchAt attempt with
  | .status404 =>
    (.error { message := "Video not found", code := .VIDEO_NOT_FOUND,
              videoId := videoId }, 1)
  | .connAborted =>
    (.error { message := "Request timeout", code := .TIMEOUT,
              videoId := videoId }, 1)
  | .axiosErr _ =>
    (.error { message := "Network error", code := .NETWORK_ERROR,
              videoId := videoId }, 1)
  | .noPlayerResponse =>
    (.error { message := "Failed to extract transcript", code := .UNKNOWN,
              videoId := videoId }, 1)
  | .ok d =>
    match checkVideoAvailability d videoId with
    | some e => (.error e, 1)
    | none =>
      if d.captionTracks.isEmpty then
        (.error { message := "No transcripts available for this video",
                  code := .TRANSCRIPT_NOT_AVAILABLE,
                  videoId := videoId }, 1)
      else
        match selectCaptionTrack d.captionTracks lang with
        | none =>
          (.error { message := "No suitable transcript found for specified language",
                    code := .TRANSCRIPT_NOT_AVAILABLE,
                    videoId := videoId }, 1)
        | some track =>
          match net.segAt attempt track.baseUrl with
          | .ok segs =>
            (.ok { videoId := videoId, title := d.title,
                   channel := d.author, duration := d.lengthSeconds,
                   language := track.languageCode,
                   isAutoGenerated := track.kind == "asr",
                   segments := segs }, 2)
          | .noEvents =>
            (.error { message := "Failed to extract transcript",
                      code := .UNKNOWN, videoId := videoId }, 2)
          | .status404 =>
            (.error { message := "Video not found",
                      code := .VIDEO_NOT_FOUND, videoId := videoId }, 2)
          | .connAborted =>
            (.error { message := "Request timeout", code := .TIMEOUT,
                      videoId := videoId }, 2)
          | .axiosErr _ =>
            (.error { message := "Network error", code := .NETWORK_ERROR,
                      videoId := videoId }, 2)

/-- Attempt loop of `extractWithRetry` instantiated with `performExtraction`,
also summing the network calls of the attempts performed (second
component). -/
def retryNetGo (net : NetOracle) (videoId : String) (lang : Option String) :
    Nat → Nat → Option TranscriptError →
      Except TranscriptError VideoTranscript × Nat
  | _, 0, last => (.error (last.getD (retriesExhaustedError videoId)), 0)
  | attempt, remaining + 1, _ =>
    match (performExtraction net attempt videoId lang).1 with
    | .ok t => (.ok t, (performExtraction net attempt videoId lang).2)
    | .error e =>
      ((retryNetGo net videoId lang (attempt + 1) remaining (some e)).1,
       (retryNetGo net videoId lang (attempt + 1) remaining (some e)).2 +
         (performExtraction net attempt videoId lang).2)

/-- Extractor state observed by the claims: the transcript cache, the number
of rate-limiter admissions (`rateLimiter.execute` calls) and the number of
network calls made. -/
structure ExtractorState where
  cache : LRU
  admissions : Nat
  networkCalls : Nat
  deriving Repr

/-- Embedding of `YouTubeExtractorService.extractTranscript`
(`youtube-extractor.service.ts:66-88`): validate the id before touching any
state, consult the cache and return a hit at once (no admission, no network
call), otherwise run the retry loop under one rate-limiter admission and
cache the result only on success. -/
def extractTranscript (retryAttempts : Nat) (net : NetOracle)
    (videoId : String) (lang : Option String) (s : ExtractorState) :
    Except TranscriptError VideoTranscript × ExtractorState :=
  if isValidVideoId videoId = false then
    (.error { message := "Invalid video ID format",
              code := .INVALID_VIDEO_ID, videoId := videoId }, s)
  else
    match LRU.get s.cache (generateKey videoId lang) with
    | (some t, c2) => (.ok t, { s with cache := c2 })
    | (none, _) =>
      match retryNetGo net videoId lang 1 retryAttempts none with
      | (.ok t, calls) =>
        (.ok t, { cache := s.cache.set (generateKey videoId lang) t,
                  admissions := s.admissions + 1,
                  networkCalls := s.networkCalls + calls })
      | (.error e, calls) =>
        (.error e, { s with
                     admissions := s.admissions + 1,
                     networkCalls := s.networkCalls + calls })

/-- Helper: a cache hit leaves the entry retrievable — getting again after a
hit returns the same transcript. -/
theorem LRU.get_get (c : LRU) (k : String) (t : VideoTranscript)
    (h : (c.get k).1 = some t) : (((c.get k).2).get k).1 = some t := by
  rw [LRU.get] at h
  cases hf : c.entries.find? (fun p => p.1 == k) with
  | none =>
    rw [hf] at h
    simp at h
  | some p =>
    rw [hf] at h
    simp at h
    have hpk : p.1 = k := by simpa using List.find?_some hf
    have hfind : ((p :: c.entries.filter (fun q => !(q.1 == k))).find?
        (fun q => q.1 == k)) = some p := by
      rw [List.find?_cons]
      simp [hpk]
    simp [LRU.get, hf, hfind, h]

/-- C5: with a valid id and a warm cache for the fingerprint
`generateKey (videoId, lang)`, `extractTranscript` returns the cached
transcript unchanged, makes no network call and performs no rate-limiter
admission; consequently, a second consecutive call with the same fingerprint
(under any network oracle) returns the identical transcript with zero
additional network calls and zero additional admissions. -/
theorem extractTranscript_cache_hit (n : Nat) (net net2 : NetOracle)
    (videoId : String) (lang : Option String) (s : ExtractorState)
    (t : VideoTranscript)
    (hvalid : isValidVideoId videoId = true)
    (hhit : (LRU.get s.cache (generateKey videoId lang)).1 = some t) :
    (extractTranscript n net videoId lang s).1 = .ok t ∧
    ((extractTranscript n net videoId lang s).2).networkCalls =
      s.networkCalls ∧
    ((extractTranscript n net videoId lang s).2).admissions =
      s.admissions ∧
    (∀ t2 s2, extractTranscript n net videoId lang s = (.ok t2, s2) →
      (extractTranscript n net2 videoId lang s2).1 = .ok t2 ∧
      ((extractTranscript n net2 videoId lang s2).2).networkCalls =
        s2.networkCalls ∧
      ((extractTranscript n net2 videoId lang s2).2).admissions =
        s2.admissions) := by
  have hvf : ¬ (isValidVideoId videoId = false) := by simp [hvalid]
  cases hg : LRU.get s.cache (generateKey videoId lang) with
  | mk o c2 =>
    have ho : o = some t := by
      have h1 := congrArg Prod.fst hg
      simp at h1
      rw [← h1]
      exact hhit
    rw [ho] at hg
    have hstep : extractTranscript n net videoId lang s =
        (.ok t, { s with cache := c2 }) := by
      rw [extractTranscript, if_neg hvf, hg]
    refine ⟨by rw [hstep], by rw [hstep], by rw [hstep], ?_⟩
    intro t2 s2 heq
    rw [hstep] at heq
    have ht2 : t2 = t := by
      have h3 := congrArg Prod.fst heq
      simpa using h3.symm
    have hs2 : s2 = { s with cache := c2 } :=
      (congrArg Prod.snd heq).symm
    rw [ht2, hs2]
    have hhit2 : (LRU.get c2 (generateKey videoId lang)).1 = some t := by
      have h2 := LRU.get_get s.cache (generateKey videoId lang) t hhit
      rw [hg] at h2
      exact h2
    cases hg2 : LRU.get c2 (generateKey videoId lang) with
    | mk o2 c3 =>
      have ho2 : o2 = some t := by
        have h4 := congrArg Prod.fst hg2
        simp at h4
        rw [← h4]
        exact hhit2
      rw [ho2] at hg2
      have hstep2 : extractTranscript n net2 videoId lang
          { s with cache := c2 } =
          (.ok t, { s with cache := c3 }) := by
        rw [extractTranscript, if_neg hvf]
        simp only
        rw [hg2]
      exact ⟨by rw [hstep2], by rw [hstep2], by rw [hstep2]⟩

/-- Concrete warm extractor state used in the cache-hit witness. -/
def warmState : ExtractorState :=
  { cache := (⟨2, []⟩ : LRU).set (generateKey "dQw4w9WgXcQ" none)
      sampleTranscript,
    admissions := 5, networkCalls := 7 }

/-- Trivial network oracle used in witnesses: every page fetch 404s. -/
def net404 : NetOracle :=
  { fetchAt := fun _ => .status404, segAt := fun _ _ => .noEvents }

/-- Witness for C5 at a concrete input: a warm cache returns the cached
transcript with the network-call and admission counters unchanged. -/
theorem extractTranscript_cache_hit_witness :
    (extractTranscript 3 net404 "dQw4w9WgXcQ" none warmState).1 =
      .ok sampleTranscript ∧
    ((extractTranscript 3 net404 "dQw4w9WgXcQ" none warmState).2
      ).networkCalls = warmState.networkCalls :=
  ⟨(extractTranscript_cache_hit 3 net404 net404 "dQw4w9WgXcQ" none
      warmState sampleTranscript (by decide) (by decide)).1,
   (extractTranscript_cache_hit 3 net404 net404 "dQw4w9WgXcQ" none
      warmState sampleTranscript (by decide) (by decide)).2.1⟩

/-- Helper: the availability check never classifies as an invalid-id
error. -/
theorem checkVideoAvailability_code (d : PageData) (videoId : String)
    (e : TranscriptError) (h : checkVideoAvailability d videoId = some e) :
    e.code ≠ .INVALID_VIDEO_ID := by
  rw [checkVideoAvailability] at h
  intro hc
  split at h
  · rw [Option.some.injEq] at h
    rw [← h] at hc
    simp at hc
  · split at h
    · rw [Option.some.injEq] at h
      rw [← h] at hc
      simp at hc
    · split at h
      · rw [Option.some.injEq] at h
        rw [← h] at hc
        simp at hc
      · split at h
        · rw [Option.some.injEq] at h
          rw [← h] at hc
          simp at hc
        · simp at h

/-- Helper: no error produced by a `performExtraction` attempt carries the
invalid-id classification. -/
theorem performExtraction_code (net : NetOracle) (attempt : Nat)
    (videoId : String) (lang : Option String) (e : TranscriptError)
    (h : (performExtraction net attempt videoId lang).1 = .error e) :
    e.code ≠ .INVALID_VIDEO_ID := by
  intro hc
  cases hf : net.fetchAt attempt with
  | status404 =>
    simp [performExtraction, hf] at h
    rw [← h] at hc
    simp at hc
  | connAborted =>
    simp [performExtraction, hf] at h
    rw [← h] at hc
    simp at hc
  | axiosErr m =>
    simp [performExtraction, hf] at h
    rw [← h] at hc
    simp at hc
  | noPlayerResponse =>
    simp [performExtraction, hf] at h
    rw [← h] at hc
    simp at hc
  | ok d =>
    simp only [performExtraction, hf] at h
    cases ha : checkVideoAvailability d videoId with
    | some e2 =>
      simp only [ha] at h
      simp at h
      rw [← h] at hc
      exact checkVideoAvailability_code d videoId e2 ha hc
    | none =>
      simp only [ha] at h
      by_cases hcap : d.captionTracks.isEmpty
      · rw [if_pos hcap] at h
        simp at h
        rw [← h] at hc
        simp at hc
      · rw [if_neg hcap] at h
        cases hsel : selectCaptionTrack d.captionTracks lang with
        | none =>
          simp only [hsel] at h
          simp at h
          rw [← h] at hc
          simp at hc
        | some track =>
          simp only [hsel] at h
          cases hseg : net.segAt attempt track.baseUrl with
          | ok segs =>
            simp only [hseg] at h
            simp at h
          | noEvents =>
            simp only [hseg] at h
            simp at h
            rw [← h] at hc
            simp at hc
          | status404 =>
            simp only [hseg] at h
            simp at h
            rw [← h] at hc
            simp at hc
          | connAborted =>
            simp only [hseg] at h
            simp at h
            rw [← h] at hc
            simp at hc
          | axiosErr m =>
            simp only [hseg] at h
            simp at h
            rw [← h] at hc
            simp at hc

/-- Helper: the retry loop only surfaces an attempt's error or the `UNKNOWN`
fallback, never an invalid-id classification. -/
theorem retryNetGo_code (net : NetOracle) (videoId : String)
    (lang : Option String) :
    ∀ remaining attempt last e,
    (∀ e2, last = some e2 → e2.code ≠ ErrorCode.INVALID_VIDEO_ID) →
    (retryNetGo net videoId lang attempt remaining last).1 = .error e →
    e.code ≠ .INVALID_VIDEO_ID := by
  intro remaining
  induction remaining with
  | zero =>
    intro attempt last e hlast h
    cases last with
    | none =>
      simp [retryNetGo, retriesExhaustedError] at h
      intro hc
      rw [← h] at hc
      simp at hc
    | some e2 =>
      simp [retryNetGo] at h
      intro hc
      rw [← h] at hc
      exact hlast e2 rfl hc
  | succ m ih =>
    intro attempt last e hlast h
    cases hp : (performExtraction net attempt videoId lang).1 with
    | ok t =>
      rw [retryNetGo] at h
      rw [hp] at h
      simp at h
    | error e3 =>
      rw [retryNetGo] at h
      rw [hp] at h
      have hcode3 : e3.code ≠ .INVALID_VIDEO_ID :=
        performExtraction_code net attempt videoId lang e3 hp
      refine ih (attempt + 1) (some e3) e ?_ h
      intro e4 h4
      rw [Option.some.injEq] at h4
      rw [← h4]
      exact hcode3

/-- C10: `extractTranscript` fails with the `INVALID_VIDEO_ID`
classification exactly on the ids rejected by the `^[a-zA-Z0-9_-]{11}$`
check: an invalid id is rejected before the cache, the rate limiter or the
network is touched (the state is returned unchanged, bit for bit), and for
a valid id no error surfaced by the call ever carries `INVALID_VIDEO_ID`. -/
theorem extractTranscript_validates_first (n : Nat) (net : NetOracle)
    (videoId : String) (lang : Option String) (s : ExtractorState) :
    (isValidVideoId videoId = false →
      extractTranscript n net videoId lang s =
        (.error { message := "Invalid video ID format",
                  code := .INVALID_VIDEO_ID, videoId := videoId }, s)) ∧
    (isValidVideoId videoId = true →
      ∀ e, (extractTranscript n net videoId lang s).1 = .error e →
        e.code ≠ .INVALID_VIDEO_ID) := by
  constructor
  · intro h
    rw [extractTranscript, if_pos h]
  · intro h e he
    have hvf : ¬ (isValidVideoId videoId = false) := by simp [h]
    rw [extractTranscript, if_neg hvf] at he
    cases hg : LRU.get s.cache (generateKey videoId lang) with
    | mk o c2 =>
      rw [hg] at he
      cases o with
      | some t => simp at he
      | none =>
        cases hr : retryNetGo net videoId lang 1 n none with
        | mk res calls =>
          rw [hr] at he
          cases res with
          | ok t => simp at he
          | error e2 =>
            simp at he
            rw [← he]
            refine retryNetGo_code net videoId lang n 1 none e2 ?_ ?_
            · intro e3 h3
              cases h3
            · rw [hr]

/-- Witness for C10 at concrete inputs: the 5-character id `"short"` is
rejected with the state untouched, and for the valid id `"dQw4w9WgXcQ"` a
404-everywhere oracle yields an error that is not `INVALID_VIDEO_ID`. -/
theorem extractTranscript_validates_first_witness :
    extractTranscript 3 net404 "short" none warmState =
      (.error { message := "Invalid video ID format",
                code := .INVALID_VIDEO_ID, videoId := "short" },
       warmState) ∧
    ((extractTranscript 3 net404 "AAAAAAAAAAA" none warmState).1 =
        .error { message := "Video not found",
                 code := .VIDEO_NOT_FOUND, videoId := "AAAAAAAAAAA" } →
      ¬ (ErrorCode.VIDEO_NOT_FOUND = ErrorCode.INVALID_VIDEO_ID)) :=
  ⟨(extractTranscript_validates_first 3 net404 "short" none warmState).1
     (by decide),
   fun hres =>
     (extractTranscript_validates_first 3 net404 "AAAAAAAAAAA" none
       warmState).2 (by decide) _ hres⟩

/-- Witness for C4 at a concrete input: the failing item B still gets its
result row in the `[A, B, C]` run. -/
theorem processBulk_isolates_failures_witness :
    ∃ r, r ∈ processBulk exampleExtractorABC none 3 ["A", "B", "C"] ∧
      r.videoId = "B" :=
  (processBulk_isolates_failures exampleExtractorABC none 3
    ["A", "B", "C"]).2.2.1 "B" (by decide)
